import Mathlib

/-!
Verification development for the progressive document cache and hydration
engine of `src/use-agent.tsx` (the `AgentStateProvider` React provider).

The TypeScript source is shallowly embedded: the stateful React hook is
modelled as explicit state passing over an `AgentState` record, and every
external effect (network call, durable-cache access, acknowledgment,
logging, publication of state) is recorded as an event in a trace.  The
runtime is single-threaded cooperative concurrency, so one invocation of
`fetchData` together with the background loop it spawns is modelled as a
deterministic function of an environment (`FetchEnv`) that answers the
network and returns the task payload.

The durable cache (`getAllDocuments` / `saveDocument` / `clearTaskCache`
from `~/utils/indexeddb`) is not part of the given source tree; those
operations are modelled from the spec (see their doc comments).
-/

namespace UseAgent

/-- A fetched document as merged into `allDocuments`:
`{ index, imageUrl, jsonData }` (source lines 134-138 and 228). -/
structure DocView where
  index : Nat
  imageUrl : String
  jsonData : String
deriving DecidableEq, Repr

/-- The `currentDocument` shape `{ imageUrl, jsonData }` (source lines 192-195, 227). -/
structure CurDoc where
  imageUrl : String
  jsonData : String
deriving DecidableEq, Repr

/-- The raw `zoningdocuments` field of the task payload, before enrichment:
parallel reference lists `imageurl` / `jsonurl`. -/
structure ZoningIn where
  imageurl : List String
  jsonurl : List String
deriving DecidableEq, Repr

/-- The `zoningdocuments` object as stored in React state.  The enrichment
fields are `Option`s because a raw (un-enriched) payload does not carry
them (JS `undefined`). -/
structure Zoning where
  imageurl : List String
  jsonurl : List String
  currentDocument : Option CurDoc
  allDocuments : Option (List DocView)
  totalCount : Option Nat
  fromCache : Option Bool
deriving DecidableEq, Repr

/-- The task payload held in the `data` React state.  `taskid` is
`Option String` because `(mainData)?.data?.taskid` may be absent; `rest`
stands for the remaining payload fields (`dbdata`, `schema`, ...), which
the hydration pipeline passes through unchanged. -/
structure TaskData where
  taskid : Option String
  zoning : Option Zoning
  rest : String
deriving DecidableEq, Repr

/-- `formStatus` values (source line 106). -/
inductive FormStatus where
  | VALID
  | INVALID
deriving DecidableEq, Repr

/-- One durable-cache record, keyed by `(tid, index)`.
`imageUrl` stands for the renderable handle derived from the stored blob. -/
structure CacheEntry where
  tid : Option String
  index : Nat
  imageUrl : String
  jsonData : String
deriving DecidableEq, Repr

/-- The durable per-task document cache contents. -/
abbrev Cache := List CacheEntry

/-- Modelled from the spec: `put(taskId, index, blob, metadata)` is an
idempotent upsert keyed by `(taskId, index)` (`saveDocument` of
`~/utils/indexeddb`, which is not in the given source tree). -/
def saveDocument (c : Cache) (tid : Option String) (i : Nat) (url js : String) : Cache :=
  ⟨tid, i, url, js⟩ :: c.filter (fun e => !(e.tid == tid && e.index == i))

/-- Insert a document into a list sorted by ascending `index`. -/
def insertByIndex (dv : DocView) : List DocView → List DocView
  | [] => [dv]
  | x :: xs => if dv.index ≤ x.index then dv :: x :: xs else x :: insertByIndex dv xs

/-- Modelled from the spec: `getAll(taskId)` returns the cached documents of
the task as an ordered sequence sorted by index; the empty sequence on a
miss, never an error (`getAllDocuments` of `~/utils/indexeddb`, which is
not in the given source tree). -/
def getAllDocuments (c : Cache) (tid : Option String) : List DocView :=
  ((c.filter (fun e => e.tid == tid)).map
    (fun e => DocView.mk e.index e.imageUrl e.jsonData)).foldr insertByIndex []

/-- Modelled from the spec: `clearTask(taskId)` deletes all entries of the
task (`clearTaskCache` of `~/utils/indexeddb`, which is not in the given
source tree). -/
def clearTaskCache (c : Cache) (p : String) : Cache :=
  c.filter (fun e => !(e.tid == some p))

/-- Trace events.  `netFetch i` stands for the parallel image + metadata
request pair `Promise.all([http.get(imageurl[i]), http.get(jsonurl[i])])`;
`publish` is a `setData` call that exposes a task payload;
`bgStart k` is the fire-and-forget `void fetchRemainingDocuments(.., k)`. -/
inductive Ev where
  | taskFetch
  | logFetchError
  | clearTask (p : String)
  | logClearWarn
  | cacheGetAll (tid : Option String)
  | netFetch (i : Nat)
  | cachePut (tid : Option String) (i : Nat)
  | publish
  | bgStart (k : Nat)
  | logInfo
  | logDocError (i : Nat)
  | ack (t : String)
  | logAckInfo
  | logAckError
deriving DecidableEq, Repr

/-- Number of occurrences of an event in a trace. -/
def countEv (t : List Ev) (e : Ev) : Nat := t.count e

/-- The environment of one `fetchData` invocation: the answers of the task
API, of the document network fetches, and of the best-effort calls.
`docFetch i = some (url, js)` means the request pair for document `i`
succeeds, yielding the object-URL handle created from the fetched image
blob and the parsed metadata; `none` means it fails (rejection at any of
the fetch / blob / json steps). -/
structure FetchEnv where
  taskFetchThrows : Bool
  status : Bool
  dataEmpty : Bool
  statusCode : Nat
  taskid : Option String
  zoningDocs : Option ZoningIn
  rest : String
  docFetch : Nat → Option (String × String)
  clearOk : Bool
  ackOk : Bool

/-- The React state of the provider that the claims are about, together
with the durable cache contents (the only cross-invocation shared store). -/
structure AgentState where
  data : Option TaskData
  formStatus : FormStatus
  isLoading : Bool
  prevTaskId : Option String
  cache : Cache
deriving DecidableEq, Repr

/-- A pending background hydration loop spawned (not awaited) by `fetchData`. -/
structure BgSpawn where
  tid : Option String
  zd : ZoningIn
  k : Nat
deriving DecidableEq, Repr

/-- Result of one `fetchData` invocation: the state after its awaited part,
its trace, and the background loop it spawned, if any. -/
structure RunOut where
  state : AgentState
  trace : List Ev
  spawn : Option BgSpawn
deriving DecidableEq, Repr

/-- JS truthiness of a possibly-absent string (`undefined`, `null` and `""`
are falsy). -/
def truthyS : Option String → Bool
  | none => false
  | some s => !(s == "")

/-- JS truthiness of `list?.[0]`. -/
def truthyHead : List String → Bool
  | [] => false
  | s :: _ => !(s == "")

/-- A raw payload's `zoningdocuments` as stored by `setData((mainData).data)`:
no enrichment fields. -/
def rawZoning : Option ZoningIn → Option Zoning
  | some zi => some ⟨zi.imageurl, zi.jsonurl, none, none, none, none⟩
  | none => none

/-- The `setData` updater of `fetchRemainingDocuments` (source lines 128-141):
spread the previous payload and append the new document to
`zoningdocuments.allDocuments` (defaulting to `[]` when absent). -/
def mergeDoc (td : TaskData) (i : Nat) (url js : String) : TaskData :=
  match td.zoning with
  | some z =>
      { td with zoning := some { z with
          allDocuments := some ((z.allDocuments.getD []) ++ [⟨i, url, js⟩]) } }
  | none =>
      { td with zoning := some ⟨[], [], none, some [⟨i, url, js⟩], none, none⟩ }

/-- The `allDocuments` list reachable from a `data` value (empty when any
link of `data?.zoningdocuments?.allDocuments` is absent). -/
def allDocsOf : Option TaskData → List DocView
  | some td =>
      match td.zoning with
      | some z => z.allDocuments.getD []
      | none => []
  | none => []

/-- The body of the `for` loop of `fetchRemainingDocuments`
(source lines 115-147), recursing on the remaining iteration count:
on success, fetch the pair, persist with `saveDocument`, merge into
`allDocuments` (a `setData`, recorded as `publish`), log; on failure, log
the error and continue with `i + 1`. -/
def bgGo (env : FetchEnv) (tid : Option String) :
    Nat → Nat → TaskData → Cache → TaskData × Cache × List Ev
  | 0, _, td, c => (td, c, [])
  | fuel + 1, i, td, c =>
      match env.docFetch i with
      | some uj =>
          let c1 := saveDocument c tid i uj.1 uj.2
          let td1 := mergeDoc td i uj.1 uj.2
          let r := bgGo env tid fuel (i + 1) td1 c1
          (r.1, r.2.1, [Ev.netFetch i, Ev.cachePut tid i, Ev.publish, Ev.logInfo] ++ r.2.2)
      | none =>
          let r := bgGo env tid fuel (i + 1) td c
          (r.1, r.2.1, [Ev.netFetch i, Ev.logDocError i] ++ r.2.2)

/-- `fetchRemainingDocuments(taskId, zoningDocs, startIndex)`
(source lines 111-150): iterate indices `startIndex ..< zoningDocs.imageurl.length`. -/
def fetchRemainingDocuments (env : FetchEnv) (tid : Option String) (zd : ZoningIn)
    (k : Nat) (td : TaskData) (c : Cache) : TaskData × Cache × List Ev :=
  bgGo env tid (zd.imageurl.length - k) k td c

/-- The task-switch eviction step (source lines 165-174): when the previous
task id is truthy and differs from the observed one, fire the best-effort
`clearTaskCache(prev)` whose failure is only logged (`.catch(console.warn)`). -/
def clearPrevStep (env : FetchEnv) (prev : Option String) (c : Cache) : Cache × List Ev :=
  match prev with
  | some p =>
      if p ≠ "" ∧ env.taskid ≠ some p then
        if env.clearOk then (clearTaskCache c p, [Ev.logInfo, Ev.clearTask p])
        else (c, [Ev.logInfo, Ev.clearTask p, Ev.logClearWarn])
      else (c, [])
  | none => (c, [])

/-- The `agentKeyedOn` acknowledgment step (source lines 257-268): run only
when `taskId` is truthy; the result is only logged (modelled from the spec
interface `acknowledgeTaskKeyedOn -> {status, data|error}`, a best-effort
call that reports failure in its return value). -/
def ackEvents (env : FetchEnv) : List Ev :=
  match env.taskid with
  | some t =>
      if t ≠ "" then Ev.ack t :: (if env.ackOk then [Ev.logAckInfo] else [Ev.logAckError])
      else []
  | none => []

/-- The trace of a fire-and-forget background spawn, if one happened. -/
def bgStartEvs : Option BgSpawn → List Ev
  | some sp => [Ev.bgStart sp.k]
  | none => []

/-- The document-hydration section of `fetchData` (source lines 176-255):
guard on `zoningDocs?.imageurl?.[0] && zoningDocs?.jsonurl?.[0]`, query the
cache, then take the cache-hit, cache-miss, degrade (catch), or
no-documents branch. -/
def hydrate (env : FetchEnv) (s : AgentState) : AgentState × List Ev × Option BgSpawn :=
  match env.zoningDocs with
  | some zd =>
      if truthyHead zd.imageurl && truthyHead zd.jsonurl then
        let total := zd.imageurl.length
        match getAllDocuments s.cache env.taskid with
        | c0 :: cs =>
            let cached := c0 :: cs
            let td : TaskData :=
              { taskid := env.taskid
                zoning := some
                  { imageurl := zd.imageurl
                    jsonurl := zd.jsonurl
                    currentDocument := some ⟨c0.imageUrl, c0.jsonData⟩
                    allDocuments := some cached
                    totalCount := some total
                    fromCache := some true }
                rest := env.rest }
            let sp : Option BgSpawn :=
              if cached.length < total then some ⟨env.taskid, zd, cached.length⟩ else none
            ({ s with data := some td, formStatus := FormStatus.VALID },
             [Ev.cacheGetAll env.taskid, Ev.logInfo, Ev.publish] ++ bgStartEvs sp,
             sp)
        | [] =>
            match env.docFetch 0 with
            | some uj =>
                let c1 := saveDocument s.cache env.taskid 0 uj.1 uj.2
                let td : TaskData :=
                  { taskid := env.taskid
                    zoning := some
                      { imageurl := zd.imageurl
                        jsonurl := zd.jsonurl
                        currentDocument := some ⟨uj.1, uj.2⟩
                        allDocuments := some [⟨0, uj.1, uj.2⟩]
                        totalCount := some total
                        fromCache := some false }
                    rest := env.rest }
                let sp : Option BgSpawn :=
                  if total > 1 then some ⟨env.taskid, zd, 1⟩ else none
                ({ s with data := some td, cache := c1, formStatus := FormStatus.VALID },
                 [Ev.cacheGetAll env.taskid, Ev.netFetch 0,
                  Ev.cachePut env.taskid 0, Ev.publish] ++ bgStartEvs sp,
                 sp)
            | none =>
                ({ s with data := some ⟨env.taskid, none, env.rest⟩,
                          formStatus := FormStatus.VALID },
                 [Ev.cacheGetAll env.taskid, Ev.netFetch 0, Ev.publish], none)
      else
        ({ s with data := some ⟨env.taskid, rawZoning env.zoningDocs, env.rest⟩,
                  formStatus := FormStatus.VALID }, [Ev.publish], none)
  | none =>
      ({ s with data := some ⟨env.taskid, rawZoning env.zoningDocs, env.rest⟩,
                formStatus := FormStatus.VALID }, [Ev.publish], none)

/-- `fetchData` (source lines 152-281): set `isLoading`, gate on
read-only/role, fetch the task, evict the previous task's cache on a task
switch, hydrate documents, acknowledge, and finally reset `isLoading` —
but only inside the gate. -/
def fetchData (env : FetchEnv) (readOnly : Bool) (roleid : String) (s : AgentState) : RunOut :=
  let s1 : AgentState := { s with isLoading := true }
  if !readOnly && (roleid == "1" || roleid == "15") then
    if env.taskFetchThrows then
      { state := { s1 with data := none, isLoading := false }
        trace := [Ev.taskFetch, Ev.logFetchError]
        spawn := none }
    else if env.status && !env.dataEmpty then
      let pc := clearPrevStep env s1.prevTaskId s1.cache
      let s2 : AgentState := { s1 with cache := pc.1, prevTaskId := env.taskid }
      let h := hydrate env s2
      { state := { h.1 with isLoading := false }
        trace := Ev.taskFetch :: (pc.2 ++ h.2.1 ++ ackEvents env)
        spawn := h.2.2 }
    else if env.status && env.statusCode == 501 then
      { state := { s1 with formStatus := FormStatus.INVALID, isLoading := false }
        trace := [Ev.taskFetch]
        spawn := none }
    else
      { state := { s1 with data := none, isLoading := false }
        trace := [Ev.taskFetch]
        spawn := none }
  else
    { state := s1, trace := [], spawn := none }

/-- One invocation of the pipeline, settled: the awaited part of `fetchData`
followed by the complete run of the background loop it spawned (the
single-threaded runtime interleaves them, but the background loop touches
only `data` and the cache). -/
def settle (env : FetchEnv) (readOnly : Bool) (roleid : String) (s : AgentState) :
    AgentState × List Ev :=
  let r := fetchData env readOnly roleid s
  match r.spawn, r.state.data with
  | some sp, some td =>
      let b := fetchRemainingDocuments env sp.tid sp.zd sp.k td r.state.cache
      ({ r.state with data := some b.1, cache := b.2.1 }, r.trace ++ b.2.2)
  | _, _ => (r.state, r.trace)

/-- `url.startsWith("blob:")`, embedded as a character-list prefix test. -/
def isBlobURL (s : String) : Bool := "blob:".data.isPrefixOf s.data

/-- The cleanup function of the object-URL effect (source lines 284-305):
the handles revoked when a `data` value is discarded — every `blob:` URL
of `allDocuments`, then of `currentDocument`, then of the legacy
`imageurl[0]` slot. -/
def cleanupObjectURLs (d : Option TaskData) : List String :=
  match d with
  | none => []
  | some td =>
      match td.zoning with
      | none => []
      | some z =>
          let fromAll := (z.allDocuments.getD []).filterMap
            (fun dv => if isBlobURL dv.imageUrl then some dv.imageUrl else none)
          let fromCur :=
            match z.currentDocument with
            | some cd => if isBlobURL cd.imageUrl then [cd.imageUrl] else []
            | none => []
          let legacy :=
            match z.imageurl with
            | u :: _ => if isBlobURL u then [u] else []
            | [] => []
          fromAll ++ fromCur ++ legacy

/-- A field-group entry of a docType's `group` set; `fields` stands for the
remaining field descriptors. -/
structure FieldGroup where
  id : String
  fields : String
deriving DecidableEq, Repr

/-- A docType's schema: `{ groupList, group, prompts }`. -/
structure SchemaGroup where
  groupList : List String
  group : List FieldGroup
  prompts : String
deriving DecidableEq, Repr

/-- The per-docType projection (source lines 342-350):
`groupList.reduce` pushing `group.find(prop => prop.id === sl)` when found. -/
def projectGroups (sg : SchemaGroup) : List FieldGroup :=
  sg.groupList.foldl
    (fun acc sl =>
      match sg.group.find? (fun prop => prop.id == sl) with
      | some sec => acc ++ [sec]
      | none => acc)
    []

/-- Spec-side projection, stated from the spec's words for comparison:
map each id of `groupList` to the entry of `group` whose id matches,
silently dropping unresolved ids and preserving `groupList` order. -/
def projectGroupsSpec (sg : SchemaGroup) : List FieldGroup :=
  sg.groupList.filterMap (fun sl => sg.group.find? (fun prop => prop.id == sl))

/-- The aggregate over all docTypes (source lines 340-354), published as
`allFormFields` (the spec's `formFieldsByType`); the schema map is
embedded as an association list in `Object.keys` order. -/
def allFormData (schema : List (String × SchemaGroup)) : List (String × List FieldGroup) :=
  schema.foldl (fun accl ll => accl ++ [(ll.1, projectGroups ll.2)]) []

/-- Spec-side characterization of one background-loop iteration's events:
on success the fetch, the cache write and the log; on failure the fetch
and the error log (used to state the sequential-hydration claim). -/
def bgIterEvents (env : FetchEnv) (tid : Option String) (i : Nat) : List Ev :=
  match env.docFetch i with
  | some _ => [Ev.netFetch i, Ev.cachePut tid i, Ev.publish, Ev.logInfo]
  | none => [Ev.netFetch i, Ev.logDocError i]

/-- The document that iteration `i` of the background loop merges, if any. -/
def viewOf (env : FetchEnv) (i : Nat) : Option DocView :=
  (env.docFetch i).map (fun uj => DocView.mk i uj.1 uj.2)

/-- A pristine provider state: no data, `VALID`, loading, no previous task,
empty durable cache. -/
def sInit : AgentState :=
  { data := none, formStatus := FormStatus.VALID, isLoading := true
    prevTaskId := none, cache := [] }

/-- Schema fixture for the C8 witness. -/
def sgW : SchemaGroup :=
  { groupList := ["a", "x", "b"]
    group := [⟨"b", "B"⟩, ⟨"a", "A"⟩]
    prompts := "p" }

/-- Environment fixture for the C10 witness. -/
def envC10 : FetchEnv :=
  { taskFetchThrows := false, status := true, dataEmpty := false, statusCode := 200
    taskid := some "T", zoningDocs := some ⟨["u0"], ["j0"]⟩, rest := "r"
    docFetch := fun _ => some ("blob:h", "d"), clearOk := true, ackOk := true }

/-- Environment for the C6 counterexample: the task fetch succeeds with a
non-empty payload and `statusCode = 501`. -/
def envC6x : FetchEnv :=
  { taskFetchThrows := false, status := true, dataEmpty := false, statusCode := 501
    taskid := some "T", zoningDocs := some ⟨["u0"], ["j0"]⟩, rest := "r"
    docFetch := fun _ => some ("blob:h", "d"), clearOk := true, ackOk := true }

/-- State fixture with one cached document for task `"T"` (witnesses). -/
def sHit : AgentState :=
  { data := none, formStatus := FormStatus.VALID, isLoading := true
    prevTaskId := none, cache := [⟨some "T", 0, "blob:a", "x"⟩] }

/-- Two-document reference lists (witnesses). -/
def zdW : ZoningIn := ⟨["u0", "u1"], ["j0", "j1"]⟩

/-- An always-succeeding document fetch oracle (witnesses). -/
def dfW : Nat → Option (String × String) := fun _ => some ("blob:n", "m")

/-- Environment fixture: a successful task fetch for task `"T"` with two
document refs (witnesses). -/
def envW1 : FetchEnv :=
  { taskFetchThrows := false, status := true, dataEmpty := false, statusCode := 200
    taskid := some "T", zoningDocs := some zdW, rest := "r"
    docFetch := dfW, clearOk := true, ackOk := true }

/-- Environment fixture: like `envW1` but the task fetch yields the empty
string as task id (C5 counterexample, first run). -/
def env1x : FetchEnv := { envW1 with taskid := some "" }

/-- Environment fixture: like `envW1` but for task `"B"` (C5 witness). -/
def envB : FetchEnv := { envW1 with taskid := some "B" }

/-- Environment fixture: one single document ref (C7 counterexample). -/
def envC7 : FetchEnv := { envW1 with zoningDocs := some ⟨["u0"], ["j0"]⟩ }

/-- Zoning fixture for the C7 witness: the published miss-path payload of a
one-document task. -/
def zC7 : Zoning :=
  { imageurl := ["u0"]
    jsonurl := ["j0"]
    currentDocument := some ⟨"blob:n", "m"⟩
    allDocuments := some [⟨0, "blob:n", "m"⟩]
    totalCount := some 1
    fromCache := some false }

/-- Task-data fixture for the C7 witness. -/
def tdC7 : TaskData := { taskid := some "T", zoning := some zC7, rest := "r" }

/-- Three-document reference lists (C3 counterexample). -/
def zd3 : ZoningIn := ⟨["u0", "u1", "u2"], ["j0", "j1", "j2"]⟩

/-- Document oracle where only index 1 fails (C3 counterexample, run 1). -/
def df3 : Nat → Option (String × String) :=
  fun i => if i == 1 then none else some ("blob:h", "d")

/-- Environment fixture: three refs, index 1 fails (C3 counterexample, run 1). -/
def env31 : FetchEnv := { envW1 with zoningDocs := some zd3, docFetch := df3 }

/-- Environment fixture: three refs, all fetches succeed (C3 counterexample, run 2). -/
def env32 : FetchEnv := { envW1 with zoningDocs := some zd3 }

/-! ### Helper lemmas about the background loop -/

theorem mergeDoc_docs (td : TaskData) (i : Nat) (url js : String) :
    allDocsOf (some (mergeDoc td i url js)) = allDocsOf (some td) ++ [⟨i, url, js⟩] := by
  cases h : td.zoning <;> simp [mergeDoc, allDocsOf, h]

theorem bgGo_trace (env : FetchEnv) (tid : Option String) :
    ∀ fuel i td c, (bgGo env tid fuel i td c).2.2 =
      ((List.range' i fuel).map (bgIterEvents env tid)).flatten := by
  intro fuel
  induction fuel with
  | zero => intro i td c; simp [bgGo]
  | succ n ih =>
      intro i td c
      rw [List.range'_succ]
      cases h : env.docFetch i <;>
        simp [bgGo, h, ih, bgIterEvents]

theorem bgGo_docs (env : FetchEnv) (tid : Option String) :
    ∀ fuel i td c, allDocsOf (some (bgGo env tid fuel i td c).1) =
      allDocsOf (some td) ++ (List.range' i fuel).filterMap (viewOf env) := by
  intro fuel
  induction fuel with
  | zero => intro i td c; simp [bgGo]
  | succ n ih =>
      intro i td c
      rw [List.range'_succ]
      cases h : env.docFetch i with
      | none => simp [bgGo, h, ih, viewOf, List.filterMap_cons]
      | some uj => simp [bgGo, h, ih, viewOf, List.filterMap_cons, mergeDoc_docs]

theorem foldl_push_general {α β : Type} (g : List β → α → List β) (f : α → Option β)
    (hg : ∀ acc x, g acc x = acc ++ (f x).toList) (l : List α) :
    ∀ acc, l.foldl g acc = acc ++ l.filterMap f := by
  induction l with
  | nil => intro acc; simp
  | cons a t ih =>
      intro acc
      rw [List.foldl_cons, hg, List.filterMap_cons]
      cases h : f a <;> simp [h, ih]

theorem foldl_push_general_nil {α β : Type} (g : List β → α → List β) (f : α → Option β)
    (hg : ∀ acc x, g acc x = acc ++ (f x).toList) (l : List α) :
    l.foldl g [] = l.filterMap f := by
  simpa using foldl_push_general g f hg l []

theorem foldl_push_eq_map {α β : Type} (g : α → β) :
    ∀ (l : List α) (acc : List β),
      l.foldl (fun acc x => acc ++ [g x]) acc = acc ++ l.map g := by
  intro l
  induction l with
  | nil => intro acc; simp
  | cons a t ih => intro acc; simp [ih]

theorem find?_id_eq_of_nodup :
    ∀ (l : List FieldGroup), (l.map FieldGroup.id).Nodup →
      ∀ (sl : String) (g : FieldGroup), g ∈ l → g.id = sl →
        l.find? (fun p => p.id == sl) = some g := by
  intro l
  induction l with
  | nil => intro _ sl g hg; cases hg
  | cons x xs ih =>
      intro hnd sl g hg hid
      rw [List.map_cons, List.nodup_cons] at hnd
      rcases List.mem_cons.mp hg with rfl | hg'
      · exact List.find?_cons_of_pos _ (by simp [hid])
      · have hx : x.id ≠ sl := by
          intro hEq
          exact hnd.1 (hEq ▸ hid ▸ List.mem_map_of_mem FieldGroup.id hg')
        rw [List.find?_cons_of_neg _ (by simp [hx])]
        exact ih hnd.2 sl g hg' hid

/-- C4: for every start index `s` and total `N`, the background loop
processes indices `s ..< N` strictly sequentially in increasing order —
its trace is exactly the concatenation, over `i = s, s+1, ..., N-1` in that
order, of the complete per-index block (fetch, persist, merge-log on
success; fetch, error-log on failure) — and a failed index is skipped
without retry while processing continues with the next index: exactly the
successful indices are merged, in the same increasing order, after the
previously published documents. -/
theorem C4_background_sequential (env : FetchEnv) (tid : Option String) (zd : ZoningIn)
    (k : Nat) (td : TaskData) (c : Cache) :
    (fetchRemainingDocuments env tid zd k td c).2.2 =
      ((List.range' k (zd.imageurl.length - k)).map (bgIterEvents env tid)).flatten
    ∧ allDocsOf (some (fetchRemainingDocuments env tid zd k td c).1) =
      allDocsOf (some td) ++ (List.range' k (zd.imageurl.length - k)).filterMap (viewOf env) :=
  ⟨bgGo_trace env tid (zd.imageurl.length - k) k td c,
   bgGo_docs env tid (zd.imageurl.length - k) k td c⟩

/-- C8: for a schema whose per-docType `group` entries have pairwise
distinct ids, the derived field-group sequence of each docType equals the
projection of its `groupList` through `group` — each id mapped to the
unique matching entry, unresolved ids silently dropped, `groupList` order
preserved — and the aggregate over all docTypes is the published
`formFieldsByType` map. -/
theorem C8_schema_projection (sg : SchemaGroup)
    (hnd : (sg.group.map FieldGroup.id).Nodup) :
    projectGroups sg = projectGroupsSpec sg
    ∧ (∀ (sl : String) (g : FieldGroup), g ∈ sg.group → g.id = sl →
        sg.group.find? (fun p => p.id == sl) = some g)
    ∧ (∀ schema : List (String × SchemaGroup),
        allFormData schema = schema.map (fun p => (p.1, projectGroups p.2))) := by
  refine ⟨?_, fun sl g hg hid => find?_id_eq_of_nodup sg.group hnd sl g hg hid, ?_⟩
  · unfold projectGroups projectGroupsSpec
    refine foldl_push_general_nil _
      (fun sl => sg.group.find? (fun prop => prop.id == sl)) ?_ sg.groupList
    intro acc sl
    cases h : sg.group.find? (fun prop => prop.id == sl) <;> simp [h]
  · intro schema
    unfold allFormData
    simpa using foldl_push_eq_map (fun p => (p.1, projectGroups p.2)) schema []

/-- Witness for C8 at a concrete schema with distinct group ids. -/
theorem C8_schema_projection_witness :
    (sgW.group.map FieldGroup.id).Nodup
    ∧ (projectGroups sgW = projectGroupsSpec sgW
      ∧ (∀ (sl : String) (g : FieldGroup), g ∈ sgW.group → g.id = sl →
          sgW.group.find? (fun p => p.id == sl) = some g)
      ∧ (∀ schema : List (String × SchemaGroup),
          allFormData schema = schema.map (fun p => (p.1, projectGroups p.2)))) :=
  ⟨by decide, C8_schema_projection sgW (by decide)⟩

/-- C10: when the session is read-only or the stored role id is neither
`"1"` nor `"15"`, an invocation of `fetchData` performs no network call and
no durable-cache access (empty trace, no background spawn) and leaves every
state field unchanged except `isLoading`, which it sets to `true` and never
resets — so such a consumer keeps observing `isLoading = true`. -/
theorem C10_role_gate (env : FetchEnv) (readOnly : Bool) (roleid : String) (s : AgentState)
    (h : readOnly = true ∨ (roleid ≠ "1" ∧ roleid ≠ "15")) :
    fetchData env readOnly roleid s =
      ⟨{ s with isLoading := true }, [], none⟩ := by
  have hg : (!readOnly && (roleid == "1" || roleid == "15")) = false := by
    rcases h with h | ⟨h1, h2⟩
    · subst h; rfl
    · simp [h1, h2]
  unfold fetchData
  rw [hg]
  rfl

/-- Witness for C10 at role id `"7"`. -/
theorem C10_role_gate_witness :
    (false = true ∨ ("7" ≠ "1" ∧ "7" ≠ "15"))
    ∧ fetchData envC10 false "7" sInit = ⟨{ sInit with isLoading := true }, [], none⟩ :=
  ⟨Or.inr ⟨by decide, by decide⟩,
   C10_role_gate envC10 false "7" sInit (Or.inr ⟨by decide, by decide⟩)⟩

/-- C6 (amended): a successful task fetch whose payload is empty and whose
`statusCode` is 501 sets the exposed status to `INVALID`, attempts no
document hydration (no cache or network access), does not replace the task
data, and changes nothing else: the retry timer, which watches only `data`
and `readOnly`, is unaffected. -/
theorem C6_not_provisioned (tid : Option String) (zds : Option ZoningIn) (rest : String)
    (df : Nat → Option (String × String)) (co ao : Bool) (s : AgentState) :
    fetchData ⟨false, true, true, 501, tid, zds, rest, df, co, ao⟩ false "1" s =
      ⟨{ s with formStatus := FormStatus.INVALID, isLoading := false }, [Ev.taskFetch], none⟩ :=
  rfl

/-- Counterexample to C6 as stated: a successful task fetch carrying
`statusCode = 501` together with a non-empty payload does not produce
`INVALID`; the code tests the status code only when the payload is empty,
so here it hydrates documents and replaces the task data instead. -/
theorem C6_counterexample :
    (fetchData envC6x false "1" sInit).state.formStatus = FormStatus.VALID
    ∧ ¬ (fetchData envC6x false "1" sInit).state.formStatus = FormStatus.INVALID
    ∧ Ev.netFetch 0 ∈ (fetchData envC6x false "1" sInit).trace
    ∧ ¬ (fetchData envC6x false "1" sInit).state.data = sInit.data := by
  decide

/-! ### Helper lemmas about the success path of `fetchData` -/

theorem fetchData_success (env : FetchEnv) (s : AgentState)
    (h1 : env.taskFetchThrows = false) (h2 : env.status = true) (h3 : env.dataEmpty = false) :
    fetchData env false "1" s =
      { state :=
          { (hydrate env
              { s with isLoading := true
                       cache := (clearPrevStep env s.prevTaskId s.cache).1
                       prevTaskId := env.taskid }).1 with isLoading := false }
        trace := Ev.taskFetch :: ((clearPrevStep env s.prevTaskId s.cache).2
          ++ (hydrate env
              { s with isLoading := true
                       cache := (clearPrevStep env s.prevTaskId s.cache).1
                       prevTaskId := env.taskid }).2.1
          ++ ackEvents env)
        spawn := (hydrate env
            { s with isLoading := true
                     cache := (clearPrevStep env s.prevTaskId s.cache).1
                     prevTaskId := env.taskid }).2.2 } := by
  obtain ⟨tft, st, de, sc, tid, zds, rest, df, co, ao⟩ := env
  subst h1
  subst h2
  subst h3
  rfl

theorem clearPrevStep_events (env : FetchEnv) (prev : Option String) (c : Cache) :
    (clearPrevStep env prev c).2 = []
    ∨ (∃ p, (clearPrevStep env prev c).2 = [Ev.logInfo, Ev.clearTask p])
    ∨ (∃ p, (clearPrevStep env prev c).2 = [Ev.logInfo, Ev.clearTask p, Ev.logClearWarn]) := by
  rcases prev with _ | p
  · exact Or.inl rfl
  · by_cases h : p ≠ "" ∧ env.taskid ≠ some p
    · by_cases hc : env.clearOk = true
      · exact Or.inr (Or.inl ⟨p, by simp [clearPrevStep, h, hc]⟩)
      · exact Or.inr (Or.inr ⟨p, by simp [clearPrevStep, h, hc]⟩)
    · exact Or.inl (by simp [clearPrevStep, h])

theorem clearPrevStep_no_netFetch (env : FetchEnv) (prev : Option String) (c : Cache) (i : Nat) :
    Ev.netFetch i ∉ (clearPrevStep env prev c).2 := by
  rcases clearPrevStep_events env prev c with h | ⟨p, h⟩ | ⟨p, h⟩ <;> rw [h] <;> simp

theorem clearPrevStep_no_publish (env : FetchEnv) (prev : Option String) (c : Cache) :
    Ev.publish ∉ (clearPrevStep env prev c).2 := by
  rcases clearPrevStep_events env prev c with h | ⟨p, h⟩ | ⟨p, h⟩ <;> rw [h] <;> simp

theorem clearPrevStep_no_ack (env : FetchEnv) (prev : Option String) (c : Cache) (t : String) :
    Ev.ack t ∉ (clearPrevStep env prev c).2 := by
  rcases clearPrevStep_events env prev c with h | ⟨p, h⟩ | ⟨p, h⟩ <;> rw [h] <;> simp

theorem getAll_clearTaskCache (c : Cache) (p : String) (tid : Option String)
    (hne : tid ≠ some p) :
    getAllDocuments (clearTaskCache c p) tid = getAllDocuments c tid := by
  unfold getAllDocuments clearTaskCache
  rw [List.filter_filter]
  have hfe : List.filter (fun e => (e.tid == tid) && !(e.tid == some p)) c
      = List.filter (fun e : CacheEntry => e.tid == tid) c := by
    refine List.filter_congr ?_
    intro e _
    by_cases he : e.tid = tid
    · rw [he]
      simp [hne]
    · simp [he]
  rw [hfe]

theorem clearPrevStep_getAll (env : FetchEnv) (prev : Option String) (c : Cache) :
    getAllDocuments (clearPrevStep env prev c).1 env.taskid = getAllDocuments c env.taskid := by
  rcases prev with _ | p
  · rfl
  · by_cases h : p ≠ "" ∧ env.taskid ≠ some p
    · by_cases hc : env.clearOk = true
      · have h1 : (clearPrevStep env (some p) c).1 = clearTaskCache c p := by
          simp [clearPrevStep, h, hc]
        rw [h1]
        exact getAll_clearTaskCache c p env.taskid h.2
      · have h1 : (clearPrevStep env (some p) c).1 = c := by
          simp [clearPrevStep, h, hc]
        rw [h1]
    · have h1 : (clearPrevStep env (some p) c).1 = c := by
        simp [clearPrevStep, h]
      rw [h1]

theorem ackEvents_mem (env : FetchEnv) (e : Ev) (he : e ∈ ackEvents env) :
    (∃ t, e = Ev.ack t) ∨ e = Ev.logAckInfo ∨ e = Ev.logAckError := by
  unfold ackEvents at he
  split at he
  · split at he
    · rcases List.mem_cons.mp he with rfl | he2
      · exact Or.inl ⟨_, rfl⟩
      · split at he2 <;> simp at he2 <;> subst he2 <;> simp
    · simp at he
  · simp at he

theorem ackEvents_no_netFetch (env : FetchEnv) (i : Nat) :
    Ev.netFetch i ∉ ackEvents env := by
  intro h
  rcases ackEvents_mem env _ h with ⟨t, ht⟩ | ht | ht <;> cases ht

theorem ackEvents_no_publish (env : FetchEnv) :
    Ev.publish ∉ ackEvents env := by
  intro h
  rcases ackEvents_mem env _ h with ⟨t, ht⟩ | ht | ht <;> cases ht

theorem ackEvents_success (env : FetchEnv) (t : String) (htid : env.taskid = some t)
    (ht : t ≠ "") :
    ackEvents env =
      Ev.ack t :: (if env.ackOk then [Ev.logAckInfo] else [Ev.logAckError]) := by
  unfold ackEvents
  rw [htid]
  simp [ht]

theorem hydrate_hit (env : FetchEnv) (s : AgentState) (zd : ZoningIn)
    (c0 : DocView) (cs : List DocView)
    (hz : env.zoningDocs = some zd)
    (hi : truthyHead zd.imageurl = true) (hj : truthyHead zd.jsonurl = true)
    (hc : getAllDocuments s.cache env.taskid = c0 :: cs) :
    hydrate env s =
      ({ s with
          data := some
            { taskid := env.taskid
              zoning := some
                { imageurl := zd.imageurl
                  jsonurl := zd.jsonurl
                  currentDocument := some ⟨c0.imageUrl, c0.jsonData⟩
                  allDocuments := some (c0 :: cs)
                  totalCount := some zd.imageurl.length
                  fromCache := some true }
              rest := env.rest }
          formStatus := FormStatus.VALID },
       [Ev.cacheGetAll env.taskid, Ev.logInfo, Ev.publish]
         ++ bgStartEvs (if (c0 :: cs).length < zd.imageurl.length
              then some ⟨env.taskid, zd, (c0 :: cs).length⟩ else none),
       if (c0 :: cs).length < zd.imageurl.length
         then some ⟨env.taskid, zd, (c0 :: cs).length⟩ else none) := by
  unfold hydrate
  rw [hz]
  simp only [hi, hj, Bool.and_self, if_true, hc]

theorem hydrate_miss (env : FetchEnv) (s : AgentState) (zd : ZoningIn) (u j : String)
    (hz : env.zoningDocs = some zd)
    (hi : truthyHead zd.imageurl = true) (hj : truthyHead zd.jsonurl = true)
    (hc : getAllDocuments s.cache env.taskid = [])
    (hdf : env.docFetch 0 = some (u, j)) :
    hydrate env s =
      ({ s with
          data := some
            { taskid := env.taskid
              zoning := some
                { imageurl := zd.imageurl
                  jsonurl := zd.jsonurl
                  currentDocument := some ⟨u, j⟩
                  allDocuments := some [⟨0, u, j⟩]
                  totalCount := some zd.imageurl.length
                  fromCache := some false }
              rest := env.rest }
          cache := saveDocument s.cache env.taskid 0 u j
          formStatus := FormStatus.VALID },
       [Ev.cacheGetAll env.taskid, Ev.netFetch 0, Ev.cachePut env.taskid 0, Ev.publish]
         ++ bgStartEvs (if zd.imageurl.length > 1 then some ⟨env.taskid, zd, 1⟩ else none),
       if zd.imageurl.length > 1 then some ⟨env.taskid, zd, 1⟩ else none) := by
  unfold hydrate
  rw [hz]
  simp only [hi, hj, Bool.and_self, if_true, hc, hdf]

theorem hydrate_publish_mem (env : FetchEnv) (s : AgentState) :
    Ev.publish ∈ (hydrate env s).2.1 := by
  unfold hydrate
  split
  · split
    · split
      · simp
      · split
        · simp
        · simp
    · simp
  · simp

theorem bgStartEvs_mem (o : Option BgSpawn) (e : Ev) (he : e ∈ bgStartEvs o) :
    ∃ k, e = Ev.bgStart k := by
  cases o with
  | none => simp [bgStartEvs] at he
  | some sp =>
      simp [bgStartEvs] at he
      exact ⟨sp.k, he⟩

theorem hydrate_no_ack (env : FetchEnv) (s : AgentState) (t : String) :
    Ev.ack t ∉ (hydrate env s).2.1 := by
  intro h
  unfold hydrate at h
  repeat' split at h
  all_goals simp [bgStartEvs] at h
  all_goals (split at h <;> simp at h)

theorem netFetch_in_bgGo (env : FetchEnv) (tid : Option String) (fuel k : Nat)
    (td : TaskData) (c : Cache) (i : Nat)
    (h : Ev.netFetch i ∈ (bgGo env tid fuel k td c).2.2) :
    k ≤ i ∧ i < k + fuel := by
  rw [bgGo_trace] at h
  rcases List.mem_flatten.mp h with ⟨blk, hblk, hin⟩
  rcases List.mem_map.mp hblk with ⟨jx, hj, rfl⟩
  have hij : i = jx := by
    unfold bgIterEvents at hin
    rcases hdf : env.docFetch jx with _ | v <;> rw [hdf] at hin <;> simpa using hin
  subst hij
  exact List.mem_range'_1.mp hj

theorem settle_trace_mem (env : FetchEnv) (ro : Bool) (rid : String) (s : AgentState) (e : Ev)
    (he : e ∈ (settle env ro rid s).2) :
    e ∈ (fetchData env ro rid s).trace
    ∨ ∃ sp td, (fetchData env ro rid s).spawn = some sp
        ∧ (fetchData env ro rid s).state.data = some td
        ∧ e ∈ (fetchRemainingDocuments env sp.tid sp.zd sp.k td
            (fetchData env ro rid s).state.cache).2.2 := by
  simp only [settle] at he
  rcases hsp : (fetchData env ro rid s).spawn with _ | sp <;> rw [hsp] at he
  · exact Or.inl (by simpa using he)
  · rcases hdata : (fetchData env ro rid s).state.data with _ | td <;> rw [hdata] at he
    · exact Or.inl (by simpa using he)
    · rcases List.mem_append.mp (by simpa using he) with h | h
      · exact Or.inl h
      · exact Or.inr ⟨sp, td, rfl, rfl, h⟩

/-- C1: on the cache-hit path — the durable cache holds `k > 0` documents
for the observed task — the published payload exposes
`currentDocument = cached[0]`, `allDocuments` equal to the full cached
sequence, `fromCache = true`; no network fetch is issued anywhere in the
settled run for an index `< k`; and a background fetch starting at index
`k` (covering `[k, N)`) is spawned exactly when `k < N`. -/
theorem C1_cache_hit (env : FetchEnv) (s : AgentState) (zd : ZoningIn)
    (c0 : DocView) (cs : List DocView)
    (h1 : env.taskFetchThrows = false) (h2 : env.status = true) (h3 : env.dataEmpty = false)
    (hz : env.zoningDocs = some zd)
    (hi : truthyHead zd.imageurl = true) (hj : truthyHead zd.jsonurl = true)
    (hc : getAllDocuments s.cache env.taskid = c0 :: cs) :
    (fetchData env false "1" s).state.data = some
        { taskid := env.taskid
          zoning := some
            { imageurl := zd.imageurl
              jsonurl := zd.jsonurl
              currentDocument := some ⟨c0.imageUrl, c0.jsonData⟩
              allDocuments := some (c0 :: cs)
              totalCount := some zd.imageurl.length
              fromCache := some true }
          rest := env.rest }
    ∧ (fetchData env false "1" s).state.formStatus = FormStatus.VALID
    ∧ (∀ i, Ev.netFetch i ∈ (settle env false "1" s).2 → (c0 :: cs).length ≤ i)
    ∧ (fetchData env false "1" s).spawn =
        (if (c0 :: cs).length < zd.imageurl.length
          then some ⟨env.taskid, zd, (c0 :: cs).length⟩ else none) := by
  have hfd := fetchData_success env s h1 h2 h3
  have hget : getAllDocuments (clearPrevStep env s.prevTaskId s.cache).1 env.taskid
      = c0 :: cs := (clearPrevStep_getAll env s.prevTaskId s.cache).trans hc
  have hhy := hydrate_hit env
    { s with isLoading := true
             cache := (clearPrevStep env s.prevTaskId s.cache).1
             prevTaskId := env.taskid } zd c0 cs hz hi hj hget
  refine ⟨?_, ?_, ?_, ?_⟩
  · rw [hfd]
    simp only [hhy]
  · rw [hfd]
    simp only [hhy]
  · intro i him
    rcases settle_trace_mem env false "1" s _ him with hm | ⟨sp, td, hsp, htd, hbg⟩
    · rw [hfd] at hm
      rcases List.mem_cons.mp hm with hm | hm
      · cases hm
      · rcases List.mem_append.mp hm with hm | hm
        · rcases List.mem_append.mp hm with hm | hm
          · exact absurd hm (clearPrevStep_no_netFetch env s.prevTaskId s.cache i)
          · rw [hhy] at hm
            rcases List.mem_append.mp hm with hm2 | hm2
            · simp at hm2
            · rcases bgStartEvs_mem _ _ hm2 with ⟨k, hk⟩
              cases hk
        · exact absurd hm (ackEvents_no_netFetch env i)
    · rw [hfd] at hsp
      simp only [hhy] at hsp
      by_cases hlt : (c0 :: cs).length < zd.imageurl.length
      · rw [if_pos hlt] at hsp
        injection hsp with hsp
        subst hsp
        unfold fetchRemainingDocuments at hbg
        exact (netFetch_in_bgGo env _ _ _ _ _ i hbg).1
      · rw [if_neg hlt] at hsp
        cases hsp
  · rw [hfd]
    simp only [hhy]

theorem settle_eq_spawn (env : FetchEnv) (ro : Bool) (rid : String) (s : AgentState)
    (sp : BgSpawn) (td : TaskData)
    (hsp : (fetchData env ro rid s).spawn = some sp)
    (htd : (fetchData env ro rid s).state.data = some td) :
    settle env ro rid s =
      ({ (fetchData env ro rid s).state with
          data := some (fetchRemainingDocuments env sp.tid sp.zd sp.k td
            (fetchData env ro rid s).state.cache).1
          cache := (fetchRemainingDocuments env sp.tid sp.zd sp.k td
            (fetchData env ro rid s).state.cache).2.1 },
       (fetchData env ro rid s).trace
         ++ (fetchRemainingDocuments env sp.tid sp.zd sp.k td
            (fetchData env ro rid s).state.cache).2.2) := by
  simp only [settle, hsp, htd]

theorem settle_eq_no_spawn (env : FetchEnv) (ro : Bool) (rid : String) (s : AgentState)
    (hsp : (fetchData env ro rid s).spawn = none) :
    settle env ro rid s = ((fetchData env ro rid s).state, (fetchData env ro rid s).trace) := by
  simp only [settle, hsp]

theorem countEv_bgStartEvs (o : Option BgSpawn) (i : Nat) :
    List.count (Ev.netFetch i) (bgStartEvs o) = 0 := by
  cases o <;> simp [bgStartEvs]

theorem countEv_bgGo_lt (env : FetchEnv) (tid : Option String) (fuel k : Nat)
    (td : TaskData) (c : Cache) (i : Nat) (hik : i < k) :
    List.count (Ev.netFetch i) (bgGo env tid fuel k td c).2.2 = 0 := by
  refine List.count_eq_zero.mpr ?_
  intro hmem
  have := (netFetch_in_bgGo env tid fuel k td c i hmem).1
  omega

/-- C2: on the cache-miss path — `getAll` returns the empty sequence — the
run issues exactly one network fetch pair for index 0 in the whole settled
run, and it happens before the payload is published; the fetched document
is persisted under `(taskId, 0)`; the published payload exposes
`currentDocument = doc0`, `allDocuments = [doc0]`, `fromCache = false`;
and a background fetch over `[1, N)` is spawned exactly when `N > 1`. -/
theorem C2_cache_miss (env : FetchEnv) (s : AgentState) (zd : ZoningIn) (u j : String)
    (h1 : env.taskFetchThrows = false) (h2 : env.status = true) (h3 : env.dataEmpty = false)
    (hz : env.zoningDocs = some zd)
    (hi : truthyHead zd.imageurl = true) (hj : truthyHead zd.jsonurl = true)
    (hc : getAllDocuments s.cache env.taskid = [])
    (hdf : env.docFetch 0 = some (u, j)) :
    (fetchData env false "1" s).state.data = some
        { taskid := env.taskid
          zoning := some
            { imageurl := zd.imageurl
              jsonurl := zd.jsonurl
              currentDocument := some ⟨u, j⟩
              allDocuments := some [⟨0, u, j⟩]
              totalCount := some zd.imageurl.length
              fromCache := some false }
          rest := env.rest }
    ∧ CacheEntry.mk env.taskid 0 u j ∈ (fetchData env false "1" s).state.cache
    ∧ countEv (settle env false "1" s).2 (Ev.netFetch 0) = 1
    ∧ (∃ l1 l2, (fetchData env false "1" s).trace = l1 ++ Ev.netFetch 0 :: l2
        ∧ Ev.publish ∈ l2)
    ∧ (fetchData env false "1" s).spawn =
        (if zd.imageurl.length > 1 then some ⟨env.taskid, zd, 1⟩ else none) := by
  have hfd := fetchData_success env s h1 h2 h3
  have hget : getAllDocuments (clearPrevStep env s.prevTaskId s.cache).1 env.taskid
      = [] := (clearPrevStep_getAll env s.prevTaskId s.cache).trans hc
  have hhy := hydrate_miss env
    { s with isLoading := true
             cache := (clearPrevStep env s.prevTaskId s.cache).1
             prevTaskId := env.taskid } zd u j hz hi hj hget hdf
  have hpc0 : List.count (Ev.netFetch 0) (clearPrevStep env s.prevTaskId s.cache).2 = 0 :=
    List.count_eq_zero.mpr (clearPrevStep_no_netFetch env s.prevTaskId s.cache 0)
  have hack0 : List.count (Ev.netFetch 0) (ackEvents env) = 0 :=
    List.count_eq_zero.mpr (ackEvents_no_netFetch env 0)
  refine ⟨?_, ?_, ?_, ?_, ?_⟩
  · rw [hfd]
    simp only [hhy]
  · rw [hfd]
    simp only [hhy]
    exact List.mem_cons_self _ _
  · by_cases hN : zd.imageurl.length > 1
    · have hsp : (fetchData env false "1" s).spawn = some ⟨env.taskid, zd, 1⟩ := by
        rw [hfd]
        simp only [hhy]
        rw [if_pos hN]
      have htd : (fetchData env false "1" s).state.data = some
          { taskid := env.taskid
            zoning := some
              { imageurl := zd.imageurl
                jsonurl := zd.jsonurl
                currentDocument := some ⟨u, j⟩
                allDocuments := some [⟨0, u, j⟩]
                totalCount := some zd.imageurl.length
                fromCache := some false }
            rest := env.rest } := by
        rw [hfd]
        simp only [hhy]
      rw [settle_eq_spawn env false "1" s _ _ hsp htd]
      unfold fetchRemainingDocuments
      rw [hfd]
      simp only [hhy]
      simp [countEv, List.count_append, List.count_cons, hpc0, hack0,
        countEv_bgStartEvs, countEv_bgGo_lt env _ _ 1 _ _ 0 (by omega)]
    · have hsp : (fetchData env false "1" s).spawn = none := by
        rw [hfd]
        simp only [hhy]
        rw [if_neg hN]
      rw [settle_eq_no_spawn env false "1" s hsp]
      rw [hfd]
      simp only [hhy]
      simp [countEv, List.count_append, List.count_cons, hpc0, hack0, countEv_bgStartEvs]
  · refine ⟨Ev.taskFetch :: ((clearPrevStep env s.prevTaskId s.cache).2
        ++ [Ev.cacheGetAll env.taskid]),
      ([Ev.cachePut env.taskid 0, Ev.publish]
        ++ bgStartEvs (if zd.imageurl.length > 1 then some ⟨env.taskid, zd, 1⟩ else none))
        ++ ackEvents env, ?_, by simp⟩
    rw [hfd]
    simp only [hhy]
    simp [List.append_assoc]
  · rw [hfd]
    simp only [hhy]

/-- Witness for C1: task `"T"` with two refs and one cached document. -/
theorem C1_cache_hit_witness :
    (envW1.taskFetchThrows = false ∧ envW1.status = true ∧ envW1.dataEmpty = false
      ∧ envW1.zoningDocs = some zdW
      ∧ truthyHead zdW.imageurl = true ∧ truthyHead zdW.jsonurl = true
      ∧ getAllDocuments sHit.cache envW1.taskid = [⟨0, "blob:a", "x"⟩])
    ∧ ((fetchData envW1 false "1" sHit).state.data = some
        { taskid := envW1.taskid
          zoning := some
            { imageurl := zdW.imageurl
              jsonurl := zdW.jsonurl
              currentDocument := some ⟨"blob:a", "x"⟩
              allDocuments := some [⟨0, "blob:a", "x"⟩]
              totalCount := some zdW.imageurl.length
              fromCache := some true }
          rest := envW1.rest }
      ∧ (fetchData envW1 false "1" sHit).state.formStatus = FormStatus.VALID
      ∧ (∀ i, Ev.netFetch i ∈ (settle envW1 false "1" sHit).2
          → ([⟨0, "blob:a", "x"⟩] : List DocView).length ≤ i)
      ∧ (fetchData envW1 false "1" sHit).spawn =
          (if ([⟨0, "blob:a", "x"⟩] : List DocView).length < zdW.imageurl.length
            then some ⟨envW1.taskid, zdW, ([⟨0, "blob:a", "x"⟩] : List DocView).length⟩
            else none)) :=
  ⟨⟨rfl, rfl, rfl, rfl, by decide, by decide, by decide⟩,
   C1_cache_hit envW1 sHit zdW ⟨0, "blob:a", "x"⟩ [] rfl rfl rfl rfl
     (by decide) (by decide) (by decide)⟩

/-- Witness for C2: task `"T"` with two refs and an empty cache. -/
theorem C2_cache_miss_witness :
    (envW1.taskFetchThrows = false ∧ envW1.status = true ∧ envW1.dataEmpty = false
      ∧ envW1.zoningDocs = some zdW
      ∧ truthyHead zdW.imageurl = true ∧ truthyHead zdW.jsonurl = true
      ∧ getAllDocuments sInit.cache envW1.taskid = []
      ∧ envW1.docFetch 0 = some ("blob:n", "m"))
    ∧ ((fetchData envW1 false "1" sInit).state.data = some
        { taskid := envW1.taskid
          zoning := some
            { imageurl := zdW.imageurl
              jsonurl := zdW.jsonurl
              currentDocument := some ⟨"blob:n", "m"⟩
              allDocuments := some [⟨0, "blob:n", "m"⟩]
              totalCount := some zdW.imageurl.length
              fromCache := some false }
          rest := envW1.rest }
      ∧ CacheEntry.mk envW1.taskid 0 "blob:n" "m" ∈ (fetchData envW1 false "1" sInit).state.cache
      ∧ countEv (settle envW1 false "1" sInit).2 (Ev.netFetch 0) = 1
      ∧ (∃ l1 l2, (fetchData envW1 false "1" sInit).trace = l1 ++ Ev.netFetch 0 :: l2
          ∧ Ev.publish ∈ l2)
      ∧ (fetchData envW1 false "1" sInit).spawn =
          (if zdW.imageurl.length > 1 then some ⟨envW1.taskid, zdW, 1⟩ else none)) :=
  ⟨⟨rfl, rfl, rfl, rfl, by decide, by decide, by decide, rfl⟩,
   C2_cache_miss envW1 sInit zdW "blob:n" "m" rfl rfl rfl rfl
     (by decide) (by decide) (by decide) rfl⟩

theorem hydrate_data_isSome (env : FetchEnv) (s : AgentState) :
    ((hydrate env s).1).data.isSome = true := by
  unfold hydrate
  repeat' split
  all_goals simp

theorem hydrate_status (env : FetchEnv) (s : AgentState) :
    ((hydrate env s).1).formStatus = FormStatus.VALID := by
  unfold hydrate
  repeat' split
  all_goals simp

/-- C9: on every successful task fetch with a non-empty payload and a
truthy `taskId`, the `agentKeyedOn` acknowledgment runs exactly once, at
the very end of the invocation — after the payload publish, so after
document hydration has been initiated — and its failure is only logged: it
produces the same state as a successful acknowledgment, leaves the task
published (`data` non-null) and keeps the exposed status `VALID`. -/
theorem C9_ack_best_effort (env : FetchEnv) (s : AgentState) (t : String)
    (h1 : env.taskFetchThrows = false) (h2 : env.status = true) (h3 : env.dataEmpty = false)
    (htid : env.taskid = some t) (ht : t ≠ "") :
    (fetchData { env with ackOk := false } false "1" s).state
      = (fetchData { env with ackOk := true } false "1" s).state
    ∧ countEv (fetchData { env with ackOk := false } false "1" s).trace (Ev.ack t) = 1
    ∧ (∃ l1, (fetchData { env with ackOk := false } false "1" s).trace
        = l1 ++ [Ev.ack t, Ev.logAckError] ∧ Ev.publish ∈ l1)
    ∧ Ev.logAckError ∈ (fetchData { env with ackOk := false } false "1" s).trace
    ∧ (fetchData { env with ackOk := false } false "1" s).state.data.isSome = true
    ∧ (fetchData { env with ackOk := false } false "1" s).state.formStatus
        = FormStatus.VALID := by
  have hfdF := fetchData_success { env with ackOk := false } s h1 h2 h3
  have hackE : ackEvents { env with ackOk := false } = [Ev.ack t, Ev.logAckError] := by
    rw [ackEvents_success { env with ackOk := false } t htid ht]
    rfl
  have hpc0 : List.count (Ev.ack t) (clearPrevStep { env with ackOk := false }
      s.prevTaskId s.cache).2 = 0 :=
    List.count_eq_zero.mpr (clearPrevStep_no_ack _ s.prevTaskId s.cache t)
  have hhy0 : List.count (Ev.ack t) (hydrate { env with ackOk := false }
      { s with isLoading := true
               cache := (clearPrevStep { env with ackOk := false } s.prevTaskId s.cache).1
               prevTaskId := FetchEnv.taskid { env with ackOk := false } }).2.1 = 0 :=
    List.count_eq_zero.mpr (hydrate_no_ack _ _ t)
  refine ⟨?_, ?_, ?_, ?_, ?_, ?_⟩
  · rw [fetchData_success { env with ackOk := false } s h1 h2 h3,
        fetchData_success { env with ackOk := true } s h1 h2 h3]
    rfl
  · rw [hfdF]
    simp [countEv, List.count_append, List.count_cons, hpc0, hhy0, hackE]
  · refine ⟨Ev.taskFetch :: ((clearPrevStep { env with ackOk := false }
        s.prevTaskId s.cache).2
      ++ (hydrate { env with ackOk := false }
        { s with isLoading := true
                 cache := (clearPrevStep { env with ackOk := false } s.prevTaskId s.cache).1
                 prevTaskId := FetchEnv.taskid { env with ackOk := false } }).2.1), ?_, ?_⟩
    · rw [hfdF, hackE]
      simp [List.append_assoc]
    · simp only [List.mem_cons, List.mem_append]
      exact Or.inr (Or.inr (hydrate_publish_mem _ _))
  · rw [hfdF, hackE]
    simp
  · rw [hfdF]
    simp [hydrate_data_isSome]
  · rw [hfdF]
    simp [hydrate_status]

/-- Witness for C9: task `"T"` with two refs, failing acknowledgment. -/
theorem C9_ack_best_effort_witness :
    (envW1.taskFetchThrows = false ∧ envW1.status = true ∧ envW1.dataEmpty = false
      ∧ envW1.taskid = some "T" ∧ "T" ≠ "")
    ∧ ((fetchData { envW1 with ackOk := false } false "1" sInit).state
        = (fetchData { envW1 with ackOk := true } false "1" sInit).state
      ∧ countEv (fetchData { envW1 with ackOk := false } false "1" sInit).trace
          (Ev.ack "T") = 1
      ∧ (∃ l1, (fetchData { envW1 with ackOk := false } false "1" sInit).trace
          = l1 ++ [Ev.ack "T", Ev.logAckError] ∧ Ev.publish ∈ l1)
      ∧ Ev.logAckError ∈ (fetchData { envW1 with ackOk := false } false "1" sInit).trace
      ∧ (fetchData { envW1 with ackOk := false } false "1" sInit).state.data.isSome = true
      ∧ (fetchData { envW1 with ackOk := false } false "1" sInit).state.formStatus
          = FormStatus.VALID) :=
  ⟨⟨rfl, rfl, rfl, rfl, by decide⟩,
   C9_ack_best_effort envW1 sInit "T" rfl rfl rfl rfl (by decide)⟩

theorem hydrate_prev (env : FetchEnv) (s : AgentState) :
    (hydrate env s).1.prevTaskId = s.prevTaskId := by
  unfold hydrate
  repeat' split
  all_goals simp

theorem hydrate_no_clearTask (env : FetchEnv) (s : AgentState) (p : String) :
    Ev.clearTask p ∉ (hydrate env s).2.1 := by
  intro h
  unfold hydrate at h
  repeat' split at h
  all_goals simp [bgStartEvs] at h
  all_goals (split at h <;> simp at h)

theorem ackEvents_no_clearTask (env : FetchEnv) (p : String) :
    Ev.clearTask p ∉ ackEvents env := by
  intro h
  rcases ackEvents_mem env _ h with ⟨t, ht⟩ | ht | ht <;> cases ht

theorem clearTask_mem_clearPrev (env : FetchEnv) (prev : Option String) (c : Cache)
    (q : String) (h : Ev.clearTask q ∈ (clearPrevStep env prev c).2) :
    prev = some q := by
  rcases prev with _ | p
  · simp [clearPrevStep] at h
  · by_cases hcond : p ≠ "" ∧ env.taskid ≠ some p
    · by_cases hc : env.clearOk = true
      · simp [clearPrevStep, hcond, hc] at h
        simp [h]
      · simp [clearPrevStep, hcond, hc] at h
        simp [h]
    · simp [clearPrevStep, hcond] at h

theorem clearPrevStep_fires (env : FetchEnv) (c : Cache) (p : String)
    (hne : p ≠ "") (hneq : env.taskid ≠ some p) :
    (clearPrevStep env (some p) c).2 =
      if env.clearOk = true then [Ev.logInfo, Ev.clearTask p]
      else [Ev.logInfo, Ev.clearTask p, Ev.logClearWarn] := by
  by_cases hc : env.clearOk = true <;> simp [clearPrevStep, hne, hneq, hc]

theorem settle_prevTaskId (env : FetchEnv) (ro : Bool) (rid : String) (s : AgentState) :
    (settle env ro rid s).1.prevTaskId = (fetchData env ro rid s).state.prevTaskId := by
  simp only [settle]
  rcases hsp : (fetchData env ro rid s).spawn with _ | sp
  · rfl
  · rcases hdata : (fetchData env ro rid s).state.data with _ | td <;> rfl

theorem fetchData_success_prev (env : FetchEnv) (s : AgentState)
    (h1 : env.taskFetchThrows = false) (h2 : env.status = true) (h3 : env.dataEmpty = false) :
    (fetchData env false "1" s).state.prevTaskId = env.taskid := by
  rw [fetchData_success env s h1 h2 h3]
  simp [hydrate_prev]

theorem hydrate_data_eq_of_getAll_eq (env : FetchEnv) (sA sB : AgentState)
    (h : getAllDocuments sA.cache env.taskid = getAllDocuments sB.cache env.taskid) :
    (hydrate env sA).1.data = (hydrate env sB).1.data := by
  unfold hydrate
  rcases hz : env.zoningDocs with _ | zd
  · simp
  · by_cases hg : (truthyHead zd.imageurl && truthyHead zd.jsonurl) = true
    · rw [h]
      simp only [hg, if_true]
      rcases hgl : getAllDocuments sB.cache env.taskid with _ | ⟨c0, cs⟩
      · rcases hdf : env.docFetch 0 with _ | uj <;> simp
      · simp
    · simp [hg]

theorem hydrate_congr_env (env env' : FetchEnv) (s : AgentState)
    (ht : env.taskid = env'.taskid) (hz : env.zoningDocs = env'.zoningDocs)
    (hd : env.docFetch = env'.docFetch) (hr : env.rest = env'.rest) :
    hydrate env s = hydrate env' s := by
  obtain ⟨a1, a2, a3, a4, a5, a6, a7, a8, a9, a10⟩ := env
  obtain ⟨b1, b2, b3, b4, b5, b6, b7, b8, b9, b10⟩ := env'
  simp only at ht hz hd hr
  subst ht
  subst hz
  subst hd
  subst hr
  rfl

/-- C5 (amended): across two consecutive successful task fetches yielding
task ids `A` then `B` with `A ≠ B`, provided `A` is non-empty (the code
treats an empty previous task id as absent), `clearTask(A)` is fired
exactly once while adopting `B`; only `A` is ever cleared; a `clearTask`
failure is merely logged and yields the same published data as a
successful one; and `clearTask` is never invoked when the task id is
unchanged or when there was no previous task. -/
theorem C5_task_switch (env1 env2 env3 : FetchEnv) (s : AgentState) (A B : String)
    (h11 : env1.taskFetchThrows = false) (h12 : env1.status = true) (h13 : env1.dataEmpty = false)
    (h1t : env1.taskid = some A)
    (h21 : env2.taskFetchThrows = false) (h22 : env2.status = true) (h23 : env2.dataEmpty = false)
    (h2t : env2.taskid = some B)
    (h31 : env3.taskFetchThrows = false) (h32 : env3.status = true) (h33 : env3.dataEmpty = false)
    (h3t : env3.taskid = some A)
    (hA : A ≠ "") (hAB : B ≠ A) (hs0 : s.prevTaskId = none) :
    countEv (fetchData env2 false "1" (settle env1 false "1" s).1).trace (Ev.clearTask A) = 1
    ∧ (∀ p, Ev.clearTask p ∈ (fetchData env2 false "1" (settle env1 false "1" s).1).trace
        → p = A)
    ∧ (fetchData env2 false "1" (settle env1 false "1" s).1).state.prevTaskId = some B
    ∧ (fetchData { env2 with clearOk := false } false "1" (settle env1 false "1" s).1).state.data
        = (fetchData { env2 with clearOk := true } false "1" (settle env1 false "1" s).1).state.data
    ∧ Ev.logClearWarn
        ∈ (fetchData { env2 with clearOk := false } false "1" (settle env1 false "1" s).1).trace
    ∧ (∀ p, Ev.clearTask p ∉ (fetchData env1 false "1" s).trace)
    ∧ (∀ p, Ev.clearTask p ∉ (fetchData env3 false "1" (settle env1 false "1" s).1).trace) := by
  have hprev1 : (settle env1 false "1" s).1.prevTaskId = some A := by
    rw [settle_prevTaskId, fetchData_success_prev env1 s h11 h12 h13, h1t]
  set s1 : AgentState := (settle env1 false "1" s).1 with hs1
  have hne2 : env2.taskid ≠ some A := by
    rw [h2t]
    simp [hAB]
  have hfd2 := fetchData_success env2 s1 h21 h22 h23
  have hcl2 : (clearPrevStep env2 s1.prevTaskId s1.cache).2 =
      if env2.clearOk = true then [Ev.logInfo, Ev.clearTask A]
      else [Ev.logInfo, Ev.clearTask A, Ev.logClearWarn] := by
    rw [hprev1]
    exact clearPrevStep_fires env2 s1.cache A hA hne2
  refine ⟨?_, ?_, ?_, ?_, ?_, ?_, ?_⟩
  · rw [hfd2]
    have hhy0 : List.count (Ev.clearTask A) (hydrate env2
        { s1 with isLoading := true
                  cache := (clearPrevStep env2 s1.prevTaskId s1.cache).1
                  prevTaskId := env2.taskid }).2.1 = 0 :=
      List.count_eq_zero.mpr (hydrate_no_clearTask _ _ A)
    have hack0 : List.count (Ev.clearTask A) (ackEvents env2) = 0 :=
      List.count_eq_zero.mpr (ackEvents_no_clearTask env2 A)
    have hpc1 : List.count (Ev.clearTask A) (clearPrevStep env2 s1.prevTaskId s1.cache).2
        = 1 := by
      rw [hcl2]
      by_cases hc : env2.clearOk = true <;> simp [hc]
    simp [countEv, List.count_append, List.count_cons, hpc1, hhy0, hack0]
  · intro p hp
    rw [hfd2] at hp
    rcases List.mem_cons.mp hp with hp | hp
    · cases hp
    · rcases List.mem_append.mp hp with hp | hp
      · rcases List.mem_append.mp hp with hp | hp
        · have := clearTask_mem_clearPrev env2 s1.prevTaskId s1.cache p hp
          rw [hprev1] at this
          injection this with this
          exact this.symm
        · exact absurd hp (hydrate_no_clearTask _ _ p)
      · exact absurd hp (ackEvents_no_clearTask env2 p)
  · rw [fetchData_success_prev env2 s1 h21 h22 h23, h2t]
  · rw [fetchData_success { env2 with clearOk := false } s1 h21 h22 h23,
        fetchData_success { env2 with clearOk := true } s1 h21 h22 h23]
    have hget : getAllDocuments
        (clearPrevStep { env2 with clearOk := false } s1.prevTaskId s1.cache).1
        (FetchEnv.taskid { env2 with clearOk := false })
        = getAllDocuments
          (clearPrevStep { env2 with clearOk := true } s1.prevTaskId s1.cache).1
          (FetchEnv.taskid { env2 with clearOk := false }) :=
      (clearPrevStep_getAll { env2 with clearOk := false } s1.prevTaskId s1.cache).trans
        (clearPrevStep_getAll { env2 with clearOk := true } s1.prevTaskId s1.cache).symm
    exact Eq.trans
      (hydrate_data_eq_of_getAll_eq { env2 with clearOk := false }
        { s1 with isLoading := true
                  cache := (clearPrevStep { env2 with clearOk := false }
                    s1.prevTaskId s1.cache).1
                  prevTaskId := FetchEnv.taskid { env2 with clearOk := false } }
        { s1 with isLoading := true
                  cache := (clearPrevStep { env2 with clearOk := true }
                    s1.prevTaskId s1.cache).1
                  prevTaskId := FetchEnv.taskid { env2 with clearOk := false } }
        hget)
      (congrArg (fun r => r.1.data)
        (hydrate_congr_env { env2 with clearOk := false } { env2 with clearOk := true }
          { s1 with isLoading := true
                    cache := (clearPrevStep { env2 with clearOk := true }
                      s1.prevTaskId s1.cache).1
                    prevTaskId := FetchEnv.taskid { env2 with clearOk := false } }
          rfl rfl rfl rfl))
  · rw [fetchData_success { env2 with clearOk := false } s1 h21 h22 h23]
    have hclF : (clearPrevStep { env2 with clearOk := false } s1.prevTaskId s1.cache).2
        = [Ev.logInfo, Ev.clearTask A, Ev.logClearWarn] := by
      rw [hprev1]
      rw [clearPrevStep_fires { env2 with clearOk := false } s1.cache A hA hne2]
      rfl
    rw [hclF]
    simp
  · intro p hp
    rw [fetchData_success env1 s h11 h12 h13] at hp
    rw [hs0] at hp
    have hpc : (clearPrevStep env1 none s.cache).2 = [] := rfl
    rw [hpc] at hp
    rcases List.mem_cons.mp hp with hp | hp
    · cases hp
    · rcases List.mem_append.mp hp with hp | hp
      · rcases List.mem_append.mp hp with hp | hp
        · cases hp
        · exact absurd hp (hydrate_no_clearTask _ _ p)
      · exact absurd hp (ackEvents_no_clearTask env1 p)
  · intro p hp
    rw [fetchData_success env3 s1 h31 h32 h33] at hp
    have hpc : (clearPrevStep env3 s1.prevTaskId s1.cache).2 = [] := by
      rw [hprev1]
      simp [clearPrevStep, h3t]
    rw [hpc] at hp
    rcases List.mem_cons.mp hp with hp | hp
    · cases hp
    · rcases List.mem_append.mp hp with hp | hp
      · rcases List.mem_append.mp hp with hp | hp
        · cases hp
        · exact absurd hp (hydrate_no_clearTask _ _ p)
      · exact absurd hp (ackEvents_no_clearTask env3 p)

/-- Counterexample to C5 as stated: two consecutive successful fetches
yield task ids `A = ""` then `B = "T"`, `A ≠ B`, yet `clearTask(A)` is
never invoked — `prevTaskIdRef.current && ...` treats the empty string as
falsy, so the guard does not fire. -/
theorem C5_counterexample :
    (settle env1x false "1" sInit).1.data.isSome = true
    ∧ (settle env1x false "1" sInit).1.prevTaskId = some ""
    ∧ (fetchData envW1 false "1" (settle env1x false "1" sInit).1).state.data.isSome = true
    ∧ ("" : String) ≠ "T"
    ∧ countEv (fetchData envW1 false "1" (settle env1x false "1" sInit).1).trace
        (Ev.clearTask "") = 0 := by
  decide

/-- Witness for C5 at tasks `"T"` then `"B"`. -/
theorem C5_task_switch_witness :
    (envW1.taskFetchThrows = false ∧ envW1.status = true ∧ envW1.dataEmpty = false
      ∧ envW1.taskid = some "T"
      ∧ envB.taskFetchThrows = false ∧ envB.status = true ∧ envB.dataEmpty = false
      ∧ envB.taskid = some "B"
      ∧ ("T" : String) ≠ "" ∧ ("B" : String) ≠ "T" ∧ sInit.prevTaskId = none)
    ∧ (countEv (fetchData envB false "1" (settle envW1 false "1" sInit).1).trace
        (Ev.clearTask "T") = 1
      ∧ (∀ p, Ev.clearTask p ∈ (fetchData envB false "1" (settle envW1 false "1" sInit).1).trace
          → p = "T")
      ∧ (fetchData envB false "1" (settle envW1 false "1" sInit).1).state.prevTaskId = some "B"
      ∧ (fetchData { envB with clearOk := false } false "1"
            (settle envW1 false "1" sInit).1).state.data
          = (fetchData { envB with clearOk := true } false "1"
            (settle envW1 false "1" sInit).1).state.data
      ∧ Ev.logClearWarn
          ∈ (fetchData { envB with clearOk := false } false "1"
            (settle envW1 false "1" sInit).1).trace
      ∧ (∀ p, Ev.clearTask p ∉ (fetchData envW1 false "1" sInit).trace)
      ∧ (∀ p, Ev.clearTask p ∉
          (fetchData envW1 false "1" (settle envW1 false "1" sInit).1).trace)) :=
  ⟨⟨rfl, rfl, rfl, rfl, rfl, rfl, rfl, rfl, by decide, by decide, rfl⟩,
   C5_task_switch envW1 envB envW1 sInit "T" "B" rfl rfl rfl rfl rfl rfl rfl rfl
     rfl rfl rfl rfl (by decide) (by decide) rfl⟩

/-- Counterexample to C7 as stated: on the miss path the handle created
from the fetched blob is referenced both from `currentDocument` and from
`allDocuments[0]`, and the cleanup effect revokes both references — the
same handle is released twice, not exactly once. -/
theorem C7_counterexample :
    (cleanupObjectURLs (settle envC7 false "1" sInit).1.data).count "blob:n" = 2
    ∧ ¬ (cleanupObjectURLs (settle envC7 false "1" sInit).1.data).count "blob:n" = 1 := by
  decide

/-- C7 (amended): on teardown of a `data` value, every `blob:` handle it
references — from an `allDocuments` entry, from `currentDocument`, or from
the legacy `imageurl[0]` slot — is revoked at least once; a handle
referenced from more than one of these places (as `currentDocument` always
aliases an `allDocuments` entry) is revoked once per reference, so
revocation is at-least-once rather than exactly-once. -/
theorem C7_release_on_teardown (td : TaskData) (z : Zoning) (h : td.zoning = some z) :
    (∀ dv ∈ z.allDocuments.getD [], isBlobURL dv.imageUrl = true →
        dv.imageUrl ∈ cleanupObjectURLs (some td))
    ∧ (∀ cd, z.currentDocument = some cd → isBlobURL cd.imageUrl = true →
        cd.imageUrl ∈ cleanupObjectURLs (some td))
    ∧ (∀ u us, z.imageurl = u :: us → isBlobURL u = true →
        u ∈ cleanupObjectURLs (some td)) := by
  simp only [cleanupObjectURLs, h]
  refine ⟨?_, ?_, ?_⟩
  · intro dv hdv hblob
    refine List.mem_append.mpr (Or.inl (List.mem_append.mpr (Or.inl ?_)))
    exact List.mem_filterMap.mpr ⟨dv, hdv, by simp [hblob]⟩
  · intro cd hcd hblob
    refine List.mem_append.mpr (Or.inl (List.mem_append.mpr (Or.inr ?_)))
    rw [hcd]
    simp [hblob]
  · intro u us hu hblob
    refine List.mem_append.mpr (Or.inr ?_)
    rw [hu]
    simp [hblob]

/-- Witness for C7 at the one-document miss-path payload. -/
theorem C7_release_on_teardown_witness :
    tdC7.zoning = some zC7
    ∧ ((∀ dv ∈ zC7.allDocuments.getD [], isBlobURL dv.imageUrl = true →
          dv.imageUrl ∈ cleanupObjectURLs (some tdC7))
      ∧ (∀ cd, zC7.currentDocument = some cd → isBlobURL cd.imageUrl = true →
          cd.imageUrl ∈ cleanupObjectURLs (some tdC7))
      ∧ (∀ u us, zC7.imageurl = u :: us → isBlobURL u = true →
          u ∈ cleanupObjectURLs (some tdC7))) :=
  ⟨rfl, C7_release_on_teardown tdC7 zC7 rfl⟩

theorem map_index_filterMap_viewOf (env : FetchEnv) (l : List Nat) :
    (l.filterMap (viewOf env)).map DocView.index
      = l.filter (fun i => (env.docFetch i).isSome) := by
  induction l with
  | nil => simp
  | cons a t ih => cases h : env.docFetch a <;> simp [viewOf, List.filterMap_cons, h, ih]

theorem truthyHead_pos (l : List String) (h : truthyHead l = true) : 1 ≤ l.length := by
  cases l with
  | nil => cases h
  | cons a t => simp

theorem hydrate_miss_fail (env : FetchEnv) (s : AgentState) (zd : ZoningIn)
    (hz : env.zoningDocs = some zd)
    (hi : truthyHead zd.imageurl = true) (hj : truthyHead zd.jsonurl = true)
    (hc : getAllDocuments s.cache env.taskid = [])
    (hdf : env.docFetch 0 = none) :
    hydrate env s =
      ({ s with data := some ⟨env.taskid, none, env.rest⟩, formStatus := FormStatus.VALID },
       [Ev.cacheGetAll env.taskid, Ev.netFetch 0, Ev.publish], none) := by
  unfold hydrate
  rw [hz]
  simp only [hi, hj, Bool.and_self, if_true, hc, hdf]

/-- Counterexample to C3 as stated: run 1 (empty cache, index 1 fails)
settles with `allDocuments` indices `[0, 2]` and cache entries for indices
0 and 2; an intervening refresh then takes the cache-hit path with
`cached.length = 2` and spawns background hydration from index 2, which
re-appends index 2 — after both runs settle, `allDocuments` carries the
duplicate index list `[0, 2, 2]`. -/
theorem C3_counterexample :
    ((allDocsOf (settle env32 false "1" (settle env31 false "1" sInit).1).1.data).map
        DocView.index = [0, 2, 2])
    ∧ ¬ ((allDocsOf (settle env32 false "1" (settle env31 false "1" sInit).1).1.data).map
        DocView.index).Nodup := by
  decide

/-- C3 (amended): for a single pipeline run that settles without an
intervening refresh, and whose cache-hit sequence (if any) carries exactly
the contiguous indices `0 ..< k` with `k ≤ N`, the final `allDocuments`
holds at most `N` entries whose indices are pairwise distinct and lie in
`[0, N)`. -/
theorem C3_settled_indices (env : FetchEnv) (s : AgentState) (zd : ZoningIn)
    (h1 : env.taskFetchThrows = false) (h2 : env.status = true) (h3 : env.dataEmpty = false)
    (hz : env.zoningDocs = some zd)
    (hi : truthyHead zd.imageurl = true) (hj : truthyHead zd.jsonurl = true)
    (hcontig : (getAllDocuments s.cache env.taskid).map DocView.index
        = List.range (getAllDocuments s.cache env.taskid).length)
    (hk : (getAllDocuments s.cache env.taskid).length ≤ zd.imageurl.length) :
    ((allDocsOf (settle env false "1" s).1.data).map DocView.index).Nodup
    ∧ (allDocsOf (settle env false "1" s).1.data).length ≤ zd.imageurl.length
    ∧ (∀ i ∈ (allDocsOf (settle env false "1" s).1.data).map DocView.index,
        i < zd.imageurl.length) := by
  have hfd := fetchData_success env s h1 h2 h3
  have hN1 : 1 ≤ zd.imageurl.length := truthyHead_pos zd.imageurl hi
  rcases hcache : getAllDocuments s.cache env.taskid with _ | ⟨c0, cs⟩
  · -- cache miss
    have hget : getAllDocuments (clearPrevStep env s.prevTaskId s.cache).1 env.taskid
        = [] := (clearPrevStep_getAll env s.prevTaskId s.cache).trans hcache
    rcases hdf : env.docFetch 0 with _ | uj
    · -- index-0 fetch fails: the document sub-payload is dropped
      have hhy := hydrate_miss_fail env
        { s with isLoading := true
                 cache := (clearPrevStep env s.prevTaskId s.cache).1
                 prevTaskId := env.taskid } zd hz hi hj hget hdf
      have hsp : (fetchData env false "1" s).spawn = none := by
        rw [hfd]
        simp only [hhy]
      have hdocs : allDocsOf (settle env false "1" s).1.data = [] := by
        rw [settle_eq_no_spawn env false "1" s hsp, hfd]
        simp only [hhy]
        rfl
      simp [hdocs]
    · -- index-0 fetch succeeds
      have hhy := hydrate_miss env
        { s with isLoading := true
                 cache := (clearPrevStep env s.prevTaskId s.cache).1
                 prevTaskId := env.taskid } zd uj.1 uj.2 hz hi hj hget hdf
      by_cases hN : zd.imageurl.length > 1
      · have hsp : (fetchData env false "1" s).spawn = some ⟨env.taskid, zd, 1⟩ := by
          rw [hfd]
          simp only [hhy]
          rw [if_pos hN]
        have htd : (fetchData env false "1" s).state.data = some
            { taskid := env.taskid
              zoning := some
                { imageurl := zd.imageurl
                  jsonurl := zd.jsonurl
                  currentDocument := some ⟨uj.1, uj.2⟩
                  allDocuments := some [⟨0, uj.1, uj.2⟩]
                  totalCount := some zd.imageurl.length
                  fromCache := some false }
              rest := env.rest } := by
          rw [hfd]
          simp only [hhy]
        have hdocs : allDocsOf (settle env false "1" s).1.data
            = [⟨0, uj.1, uj.2⟩]
              ++ (List.range' 1 (zd.imageurl.length - 1)).filterMap (viewOf env) := by
          rw [settle_eq_spawn env false "1" s _ _ hsp htd]
          simp only [fetchRemainingDocuments]
          rw [bgGo_docs]
          rfl
        have hidx : (allDocsOf (settle env false "1" s).1.data).map DocView.index
            = 0 :: (List.range' 1 (zd.imageurl.length - 1)).filter
                (fun i => (env.docFetch i).isSome) := by
          rw [hdocs]
          simp [map_index_filterMap_viewOf]
        refine ⟨?_, ?_, ?_⟩
        · rw [hidx]
          refine List.nodup_cons.mpr ⟨?_, ?_⟩
          · intro hmem
            have := List.mem_range'_1.mp (List.mem_of_mem_filter hmem)
            omega
          · exact ((List.range' 1 (zd.imageurl.length - 1)).filter_sublist).nodup
              (List.nodup_range' 1 (zd.imageurl.length - 1))
        · have := congrArg List.length hidx
          rw [List.length_map] at this
          rw [this]
          have hfl : ((List.range' 1 (zd.imageurl.length - 1)).filter
              (fun i => (env.docFetch i).isSome)).length ≤ zd.imageurl.length - 1 := by
            have := List.length_filter_le (fun i => (env.docFetch i).isSome)
              (List.range' 1 (zd.imageurl.length - 1))
            simpa using this
          simp only [List.length_cons]
          omega
        · intro i hmem
          rw [hidx] at hmem
          rcases List.mem_cons.mp hmem with rfl | hmem
          · omega
          · have := List.mem_range'_1.mp (List.mem_of_mem_filter hmem)
            omega
      · have hsp : (fetchData env false "1" s).spawn = none := by
          rw [hfd]
          simp only [hhy]
          rw [if_neg hN]
        have hdocs : allDocsOf (settle env false "1" s).1.data = [⟨0, uj.1, uj.2⟩] := by
          rw [settle_eq_no_spawn env false "1" s hsp, hfd]
          simp only [hhy]
          rfl
        refine ⟨?_, ?_, ?_⟩
        · rw [hdocs]
          simp
        · rw [hdocs]
          simpa using hN1
        · intro i hmem
          rw [hdocs] at hmem
          simp at hmem
          omega
  · -- cache hit
    rw [hcache] at hcontig hk
    have hget : getAllDocuments (clearPrevStep env s.prevTaskId s.cache).1 env.taskid
        = c0 :: cs := (clearPrevStep_getAll env s.prevTaskId s.cache).trans hcache
    have hhy := hydrate_hit env
      { s with isLoading := true
               cache := (clearPrevStep env s.prevTaskId s.cache).1
               prevTaskId := env.taskid } zd c0 cs hz hi hj hget
    by_cases hlt : (c0 :: cs).length < zd.imageurl.length
    · have hsp : (fetchData env false "1" s).spawn
          = some ⟨env.taskid, zd, (c0 :: cs).length⟩ := by
        rw [hfd]
        simp only [hhy]
        rw [if_pos hlt]
      have htd : (fetchData env false "1" s).state.data = some
          { taskid := env.taskid
            zoning := some
              { imageurl := zd.imageurl
                jsonurl := zd.jsonurl
                currentDocument := some ⟨c0.imageUrl, c0.jsonData⟩
                allDocuments := some (c0 :: cs)
                totalCount := some zd.imageurl.length
                fromCache := some true }
            rest := env.rest } := by
        rw [hfd]
        simp only [hhy]
      have hdocs : allDocsOf (settle env false "1" s).1.data
          = (c0 :: cs)
            ++ (List.range' (c0 :: cs).length
                (zd.imageurl.length - (c0 :: cs).length)).filterMap (viewOf env) := by
        rw [settle_eq_spawn env false "1" s _ _ hsp htd]
        simp only [fetchRemainingDocuments]
        rw [bgGo_docs]
        rfl
      have hidx : (allDocsOf (settle env false "1" s).1.data).map DocView.index
          = List.range (c0 :: cs).length
            ++ (List.range' (c0 :: cs).length
                (zd.imageurl.length - (c0 :: cs).length)).filter
              (fun i => (env.docFetch i).isSome) := by
        rw [hdocs]
        rw [List.map_append, hcontig, map_index_filterMap_viewOf]
      refine ⟨?_, ?_, ?_⟩
      · rw [hidx]
        refine List.nodup_append.mpr ⟨List.nodup_range _, ?_, ?_⟩
        · exact ((List.range' _ _).filter_sublist).nodup (List.nodup_range' _ _)
        · intro a ha hb
          have h1a := List.mem_range.mp ha
          have h2a := List.mem_range'_1.mp (List.mem_of_mem_filter hb)
          omega
      · have := congrArg List.length hidx
        rw [List.length_map] at this
        rw [this, List.length_append, List.length_range]
        have hfl := List.length_filter_le (fun i => (env.docFetch i).isSome)
          (List.range' (c0 :: cs).length (zd.imageurl.length - (c0 :: cs).length))
        simp only [List.length_range'] at hfl
        omega
      · intro i hmem
        rw [hidx] at hmem
        rcases List.mem_append.mp hmem with hmem | hmem
        · have := List.mem_range.mp hmem
          omega
        · have := List.mem_range'_1.mp (List.mem_of_mem_filter hmem)
          omega
    · have hsp : (fetchData env false "1" s).spawn = none := by
        rw [hfd]
        simp only [hhy]
        rw [if_neg hlt]
      have hdocs : allDocsOf (settle env false "1" s).1.data = c0 :: cs := by
        rw [settle_eq_no_spawn env false "1" s hsp, hfd]
        simp only [hhy]
        rfl
      refine ⟨?_, ?_, ?_⟩
      · rw [hdocs, hcontig]
        exact List.nodup_range _
      · rw [hdocs]
        exact hk
      · intro i hmem
        rw [hdocs, hcontig] at hmem
        have := List.mem_range.mp hmem
        omega

/-- Witness for C3 (amended) at a two-document task with one cached
document. -/
theorem C3_settled_indices_witness :
    (envW1.taskFetchThrows = false ∧ envW1.status = true ∧ envW1.dataEmpty = false
      ∧ envW1.zoningDocs = some zdW
      ∧ truthyHead zdW.imageurl = true ∧ truthyHead zdW.jsonurl = true
      ∧ (getAllDocuments sHit.cache envW1.taskid).map DocView.index
          = List.range (getAllDocuments sHit.cache envW1.taskid).length
      ∧ (getAllDocuments sHit.cache envW1.taskid).length ≤ zdW.imageurl.length)
    ∧ (((allDocsOf (settle envW1 false "1" sHit).1.data).map DocView.index).Nodup
      ∧ (allDocsOf (settle envW1 false "1" sHit).1.data).length ≤ zdW.imageurl.length
      ∧ (∀ i ∈ (allDocsOf (settle envW1 false "1" sHit).1.data).map DocView.index,
          i < zdW.imageurl.length)) :=
  ⟨⟨rfl, rfl, rfl, rfl, by decide, by decide, by decide, by decide⟩,
   C3_settled_indices envW1 sHit zdW rfl rfl rfl rfl
     (by decide) (by decide) (by decide) (by decide)⟩

end UseAgent
